import Mathlib

/-!
Verification development for the request admission-control / rate-limiting
engine of the JurisRank API (`src/rate_limiter.py`).

The Python module is shallowly embedded: timestamps (Python floats from
`time.time()`) are modelled as integer seconds (all window durations and all
inputs the claims speak about are whole seconds, on which Python's float
arithmetic and its `int()` truncations are exact), Python integers as `Int`,
the per-client dictionary `self.clients` as a function
`String → Option ClientUsage`, and each method as a pure Lean function.
Optional per-window limits (`requests_per_minute`, `requests_per_day`) are
`Option Int`; the code's `float('inf')` stand-in for an absent limit in
`get_applicable_limits` is modelled as `none`, which enforces the same
(vacuous) constraint.
-/

/-- Python `int()` applied to a float timestamp difference: truncation toward
zero, the identity on the integral values of this model. -/
def pyInt (q : ℤ) : ℤ := q

/-- Embedding of the `ClientTier` enum. -/
inductive ClientTier where
  | DEFAULT
  | AUTHENTICATED
  | PREMIUM
  | ADMIN
deriving DecidableEq

/-- Embedding of the `RateLimitRule` dataclass.  `none` in an optional field
is the absent limit (the code's `None`, or the `float('inf')` produced when
merging two absent limits: both enforce nothing). -/
structure RateLimitRule where
  requests_per_hour : ℤ
  requests_per_minute : Option ℤ
  requests_per_day : Option ℤ
  burst_allowance : ℤ
  tier : ClientTier
deriving DecidableEq

/-- Embedding of the `ClientUsage` dataclass. -/
structure ClientUsage where
  requests_count : ℤ
  first_request_time : ℤ
  last_request_time : ℤ
  window_start : ℤ
  total_requests : ℤ
  violations : ℤ
deriving DecidableEq

/-- `ClientUsage()` constructed at time `now`: every `default_factory=time.time`
field is the creation instant, counters start at zero. -/
def ClientUsage.init (now : ℤ) : ClientUsage :=
  { requests_count := 0
    first_request_time := now
    last_request_time := now
    window_start := now
    total_requests := 0
    violations := 0 }

/-- The `self.tier_limits` table from `AdvancedRateLimiter.__init__`. -/
def tier_limits : ClientTier → RateLimitRule
  | .DEFAULT => ⟨100, some 10, some 500, 10, .DEFAULT⟩
  | .AUTHENTICATED => ⟨1000, some 50, some 5000, 20, .DEFAULT⟩
  | .PREMIUM => ⟨5000, some 200, some 25000, 50, .DEFAULT⟩
  | .ADMIN => ⟨10000, some 500, some 100000, 100, .DEFAULT⟩

/-- The `self.endpoint_limits` table from `AdvancedRateLimiter.__init__`. -/
def endpoint_limits (endpoint : String) : Option RateLimitRule :=
  if endpoint = "/api/v1/analysis/constitutional" then
    some ⟨50, some 5, none, 10, .DEFAULT⟩
  else if endpoint = "/api/v1/document/enhance" then
    some ⟨25, some 3, none, 10, .DEFAULT⟩
  else if endpoint = "/api/v1/search/precedents" then
    some ⟨200, some 20, none, 10, .DEFAULT⟩
  else
    none

/-- Merge of one optional limit field in `get_applicable_limits`:
`min(a or float('inf'), b or float('inf'))`, with `none` denoting the
absent / infinite limit. -/
def minOptLimit : Option ℤ → Option ℤ → Option ℤ
  | none, none => none
  | some a, none => some a
  | none, some b => some b
  | some a, some b => some (min a b)

/-- Embedding of `AdvancedRateLimiter.get_applicable_limits`. -/
def get_applicable_limits (client_tier : ClientTier) (endpoint : String) : RateLimitRule :=
  let base_limits := tier_limits client_tier
  match endpoint_limits endpoint with
  | some ep =>
    { requests_per_hour := min base_limits.requests_per_hour ep.requests_per_hour
      requests_per_minute := minOptLimit base_limits.requests_per_minute ep.requests_per_minute
      requests_per_day := minOptLimit base_limits.requests_per_day ep.requests_per_day
      burst_allowance := min base_limits.burst_allowance ep.burst_allowance
      tier := client_tier }
  | none => base_limits

/-- Embedding of `AdvancedRateLimiter._count_requests_in_window`. -/
def countRequestsInWindow (usage : ClientUsage) (window_size : ℤ) (current_time : ℤ) : ℤ :=
  if current_time - usage.first_request_time < window_size then usage.requests_count else 0

/-- The rate-limit info dictionary built by
`AdvancedRateLimiter._get_rate_limit_info`. -/
structure RateLimitInfo where
  limit : ℤ
  remaining : ℤ
  reset : ℤ
  window : ℤ
  policy : String
  retry_after : Option ℤ
deriving DecidableEq

/-- Embedding of `AdvancedRateLimiter._get_rate_limit_info`. -/
def getRateLimitInfo (limits : RateLimitRule) (usage : ClientUsage) (current_time : ℤ) :
    RateLimitInfo :=
  let window_remaining : ℤ := 3600 - (current_time - usage.window_start)
  let reset_time : ℤ := usage.window_start + 3600
  { limit := limits.requests_per_hour
    remaining := max 0 (limits.requests_per_hour - usage.requests_count)
    reset := pyInt reset_time
    window := 3600
    policy := toString limits.requests_per_hour ++ " per hour"
    retry_after :=
      if limits.requests_per_hour ≤ usage.requests_count then
        some (max 1 (pyInt window_remaining))
      else
        none }

/-- The "clean up old windows" step at the top of `is_within_limits`:
`if current_time - usage.window_start > hour_window` (strict, hour only). -/
def hourResetAdjust (usage : ClientUsage) (current_time : ℤ) : ClientUsage :=
  if 3600 < current_time - usage.window_start then
    { usage with requests_count := 0, window_start := current_time }
  else
    usage

/-- One optional-window check inside `is_within_limits`: the Python guard
`if limits.requests_per_minute:` (falsy for `None` and for `0`) followed by
`minute_requests >= limits.requests_per_minute`. -/
def windowViolated (limOpt : Option ℤ) (usage : ClientUsage) (window_size : ℤ)
    (current_time : ℤ) : Bool :=
  match limOpt with
  | none => false
  | some m => if m = 0 then false else decide (m ≤ countRequestsInWindow usage window_size current_time)

/-- Embedding of the body of `AdvancedRateLimiter.is_within_limits` for one
client record: returns `(is_allowed, updated usage, rate_limit_info)`. -/
def isWithinLimits (limits : RateLimitRule) (usage0 : ClientUsage) (current_time : ℤ) :
    Bool × ClientUsage × RateLimitInfo :=
  let usage1 := hourResetAdjust usage0 current_time
  if limits.requests_per_hour ≤ usage1.requests_count then
    let u2 := { usage1 with violations := usage1.violations + 1 }
    (false, u2, getRateLimitInfo limits u2 current_time)
  else if windowViolated limits.requests_per_minute usage1 60 current_time then
    let u2 := { usage1 with violations := usage1.violations + 1 }
    (false, u2, getRateLimitInfo limits u2 current_time)
  else if windowViolated limits.requests_per_day usage1 86400 current_time then
    let u2 := { usage1 with violations := usage1.violations + 1 }
    (false, u2, getRateLimitInfo limits u2 current_time)
  else
    let u2 := { usage1 with
      requests_count := usage1.requests_count + 1
      total_requests := usage1.total_requests + 1
      last_request_time := current_time }
    (true, u2, getRateLimitInfo limits u2 current_time)

/-- The `self.clients` dictionary. -/
def Store : Type := String → Option ClientUsage

/-- The empty client map the limiter starts with. -/
def emptyStore : Store := fun _ => none

/-- Dictionary write `self.clients[client_id] = usage`. -/
def storeSet (s : Store) (client_id : String) (u : ClientUsage) : Store :=
  fun k => if k = client_id then some u else s k

/-- `is_within_limits` at store level: lazily create the record, run the
check, write the mutated record back. -/
def storeCheck (s : Store) (client_id : String) (client_tier : ClientTier)
    (endpoint : String) (current_time : ℤ) : Bool × Store × RateLimitInfo :=
  let usage := match s client_id with
    | some u => u
    | none => ClientUsage.init current_time
  let r := isWithinLimits (get_applicable_limits client_tier endpoint) usage current_time
  (r.1, storeSet s client_id r.2.1, r.2.2)

/-- Embedding of `AdvancedRateLimiter.cleanup_old_clients`: drop every record
with `current_time - last_request_time > max_age` (strict). -/
def cleanup_old_clients (s : Store) (max_age : ℤ) (current_time : ℤ) : Store :=
  fun k => match s k with
    | some u => if max_age < current_time - u.last_request_time then none else some u
    | none => none

/-- The operations that touch `self.clients`: admission checks, `get_stats`
reads (read-only under the lock), and reaper sweeps. -/
inductive RLOp where
  | check (client_id : String) (client_tier : ClientTier) (endpoint : String) (now : ℤ)
  | statsRead
  | cleanup (max_age : ℤ) (now : ℤ)

/-- Effect of one operation on the client map. -/
def applyOp (s : Store) : RLOp → Store
  | .check cid tier ep now => (storeCheck s cid tier ep now).2.1
  | .statsRead => s
  | .cleanup ma now => cleanup_old_clients s ma now

/-- Run a sequence of operations from the empty client map. -/
def runOps (ops : List RLOp) : Store :=
  ops.foldl applyOp emptyStore

/-- Run a sequence of admission checks for one client record, collecting each
call's `(is_allowed, rate_limit_info)` and the final record. -/
def runChecks (limits : RateLimitRule) (usage : ClientUsage) :
    List ℤ → List (Bool × RateLimitInfo) × ClientUsage
  | [] => ([], usage)
  | t :: rest =>
    let r := isWithinLimits limits usage t
    let rec' := runChecks limits r.2.1 rest
    ((r.1, r.2.2) :: rec'.1, rec'.2)

example : (runChecks ⟨5, none, none, 10, .DEFAULT⟩ (ClientUsage.init 0) [0, 1, 2, 3, 4, 5]).1.map
    (fun p => (p.1, p.2.remaining)) =
    [(true, 4), (true, 3), (true, 2), (true, 1), (true, 0), (false, 0)] := by decide

/-- Reduce to a 32-bit word. -/
def w32 (n : Nat) : Nat := n % 4294967296

/-- 32-bit right rotation. -/
def rotr32 (x n : Nat) : Nat := w32 ((x >>> n) ||| (x <<< (32 - n)))

/-- SHA-256 round constants. -/
def shaK : List Nat :=
  [1116352408, 1899447441, 3049323471, 3921009573, 961987163, 1508970993,
   2453635748, 2870763221, 3624381080, 310598401, 607225278, 1426881987,
   1925078388, 2162078206, 2614888103, 3248222580, 3835390401, 4022224774,
   264347078, 604807628, 770255983, 1249150122, 1555081692, 1996064986,
   2554220882, 2821834349, 2952996808, 3210313671, 3336571891, 3584528711,
   113926993, 338241895, 666307205, 773529912, 1294757372, 1396182291,
   1695183700, 1986661051, 2177026350, 2456956037, 2730485921, 2820302411,
   3259730800, 3345764771, 3516065817, 3600352804, 4094571909, 275423344,
   430227734, 506948616, 659060556, 883997877, 958139571, 1322822218,
   1537002063, 1747873779, 1955562222, 2024104815, 2227730452, 2361852424,
   2428436474, 2756734187, 3204031479, 3329325298]

/-- SHA-256 initial hash state. -/
def shaH0 : List Nat :=
  [1779033703, 3144134277, 1013904242, 2773480762,
   1359893119, 2600822924, 528734635, 1541459225]

/-- SHA-256 padding: append `0x80`, zeros, and the 64-bit big-endian bit length. -/
def shaPad (msg : List Nat) : List Nat :=
  let len := msg.length
  let zeros := (120 - ((len + 1) % 64)) % 64
  msg ++ [128] ++ List.replicate zeros 0 ++
    ((List.range 8).map (fun i => ((len * 8) >>> (8 * (7 - i))) % 256))

/-- Group bytes into big-endian 32-bit words. -/
def bytesToWords : List Nat → List Nat
  | b0 :: b1 :: b2 :: b3 :: rest =>
    (b0 * 16777216 + b1 * 65536 + b2 * 256 + b3) :: bytesToWords rest
  | _ => []

/-- Split a byte list into 64-byte blocks (fuel-driven; the list is always
a padded message, so `l.length` steps suffice). -/
def chunks64Aux : Nat → List Nat → List (List Nat)
  | 0, _ => []
  | _, [] => []
  | n + 1, l => l.take 64 :: chunks64Aux n (l.drop 64)

def chunks64 (l : List Nat) : List (List Nat) := chunks64Aux l.length l

def smallSigma0 (x : Nat) : Nat := rotr32 x 7 ^^^ rotr32 x 18 ^^^ (x >>> 3)
def smallSigma1 (x : Nat) : Nat := rotr32 x 17 ^^^ rotr32 x 19 ^^^ (x >>> 10)
def bigSigma0 (x : Nat) : Nat := rotr32 x 2 ^^^ rotr32 x 13 ^^^ rotr32 x 22
def bigSigma1 (x : Nat) : Nat := rotr32 x 6 ^^^ rotr32 x 11 ^^^ rotr32 x 25
def chFn (e f g : Nat) : Nat := (e &&& f) ^^^ ((e ^^^ 4294967295) &&& g)
def majFn (a b c : Nat) : Nat := (a &&& b) ^^^ (a &&& c) ^^^ (b &&& c)

/-- Extend the 16 message-schedule words to 64. -/
def buildW (ws : List Nat) : List Nat :=
  (List.range 48).foldl
    (fun w _ =>
      let n := w.length
      w ++ [w32 (smallSigma1 (w.getD (n - 2) 0) + w.getD (n - 7) 0 +
                 smallSigma0 (w.getD (n - 15) 0) + w.getD (n - 16) 0)])
    ws

/-- One SHA-256 compression step. -/
def shaStep (st : List Nat) (kw : Nat × Nat) : List Nat :=
  match st with
  | [a, b, c, d, e, f, g, h] =>
    let t1 := w32 (h + bigSigma1 e + chFn e f g + kw.1 + kw.2)
    let t2 := w32 (bigSigma0 a + majFn a b c)
    [w32 (t1 + t2), a, b, c, w32 (d + t1), e, f, g]
  | _ => st

/-- Compress one 64-byte block into the hash state. -/
def shaCompress (hs : List Nat) (block : List Nat) : List Nat :=
  let w := buildW (bytesToWords block)
  let fin := (shaK.zip w).foldl shaStep hs
  (hs.zip fin).map (fun p => w32 (p.1 + p.2))

/-- SHA-256 digest of a byte string, as eight 32-bit words. -/
def sha256 (msg : List Nat) : List Nat :=
  (chunks64 (shaPad msg)).foldl shaCompress shaH0

def hexDigit (n : Nat) : Char := if n < 10 then Char.ofNat (48 + n) else Char.ofNat (87 + n)

def word32Hex (w : Nat) : List Char :=
  (List.range 8).map (fun i => hexDigit ((w >>> (4 * (7 - i))) % 16))

/-- Lower-case hex digest, as produced by `hashlib.sha256(...).hexdigest()`. -/
def sha256hex (msg : List Nat) : String :=
  String.mk ((sha256 msg).foldr (fun w acc => word32Hex w ++ acc) [])

/-- UTF-8 bytes of a string (`str.encode()`); on the ASCII inputs used in this
development this is the list of code points. -/
def strBytes (s : String) : List Nat := s.data.map Char.toNat

/-- The request metadata `get_client_identifier` reads: the `Authorization`,
`X-API-Key` and `User-Agent` headers and the WSGI `HTTP_X_FORWARDED_FOR` /
`REMOTE_ADDR` environ entries.  `none` is an absent header/entry. -/
structure RequestMeta where
  authorization : Option String
  x_api_key : Option String
  user_agent : Option String
  http_x_forwarded_for : Option String
  remote_addr : Option String
deriving DecidableEq

/-- The anonymous fallback branch of `get_client_identifier`:
`"anon:" + sha256(f"{ip_address}:{user_agent}".encode()).hexdigest()[:16]`,
with the IP taken from `HTTP_X_FORWARDED_FOR`, falling back to `REMOTE_ADDR`,
falling back to the literal `"unknown"`. -/
def anonIdentifier (req : RequestMeta) : String :=
  let ip_address := match req.http_x_forwarded_for with
    | some v => v
    | none => match req.remote_addr with
      | some v => v
      | none => "unknown"
  let user_agent := match req.user_agent with
    | some v => v
    | none => "unknown"
  "anon:" ++ (sha256hex (strBytes (ip_address ++ ":" ++ user_agent))).take 16

/-- Embedding of `AdvancedRateLimiter.get_client_identifier`.  The `X-API-Key`
branch mirrors Python truthiness: an empty header falls through to the
anonymous branch. -/
def get_client_identifier (req : RequestMeta) : String :=
  let auth_header := match req.authorization with
    | some v => v
    | none => ""
  if auth_header.startsWith "Bearer " then
    "api:" ++ (sha256hex (strBytes (auth_header.drop 7))).take 16
  else
    match req.x_api_key with
    | some k => if k = "" then anonIdentifier req else "api:" ++ (sha256hex (strBytes k)).take 16
    | none => anonIdentifier req

/-- If the hour window has not elapsed (in the code's strict sense), the
"clean up old windows" step leaves the record untouched. -/
theorem hourResetAdjust_eq_self (u : ClientUsage) (now : ℤ)
    (h : now - u.window_start ≤ 3600) : hourResetAdjust u now = u := by
  unfold hourResetAdjust
  rw [if_neg (by omega)]

/-- Step lemma: under a policy with no minute and no day limit, a check inside
the current hour window with count below the hourly limit is allowed and
increments the counters. -/
theorem isWithinLimits_hourlyOnly_allowed (L b : ℤ) (tr : ClientTier)
    (u : ClientUsage) (now : ℤ)
    (hadj : now - u.window_start ≤ 3600) (hlt : u.requests_count < L) :
    isWithinLimits ⟨L, none, none, b, tr⟩ u now =
      (true,
       { u with requests_count := u.requests_count + 1
                total_requests := u.total_requests + 1
                last_request_time := now },
       getRateLimitInfo ⟨L, none, none, b, tr⟩
         { u with requests_count := u.requests_count + 1
                  total_requests := u.total_requests + 1
                  last_request_time := now } now) := by
  unfold isWithinLimits
  rw [hourResetAdjust_eq_self u now hadj]
  rw [if_neg (by dsimp only; omega)]
  simp [windowViolated]

/-- Step lemma: under a policy with no minute and no day limit, a check inside
the current hour window with count at (or above) the hourly limit is rejected
and only bumps `violations`. -/
theorem isWithinLimits_hourlyOnly_rejected (L b : ℤ) (tr : ClientTier)
    (u : ClientUsage) (now : ℤ)
    (hadj : now - u.window_start ≤ 3600) (hge : L ≤ u.requests_count) :
    isWithinLimits ⟨L, none, none, b, tr⟩ u now =
      (false,
       { u with violations := u.violations + 1 },
       getRateLimitInfo ⟨L, none, none, b, tr⟩
         { u with violations := u.violations + 1 } now) := by
  unfold isWithinLimits
  rw [hourResetAdjust_eq_self u now hadj]
  rw [if_pos (by dsimp only; omega)]

/-- Projection of `_get_rate_limit_info`: the reported `remaining` value. -/
theorem getInfo_remaining (limits : RateLimitRule) (u : ClientUsage) (now : ℤ) :
    (getRateLimitInfo limits u now).remaining =
      max 0 (limits.requests_per_hour - u.requests_count) := by
  simp [getRateLimitInfo]

/-- Projection of `_get_rate_limit_info`: `retry_after` when the hourly count
has reached the hourly limit. -/
theorem getInfo_retry_some (limits : RateLimitRule) (u : ClientUsage) (now : ℤ)
    (h : limits.requests_per_hour ≤ u.requests_count) :
    (getRateLimitInfo limits u now).retry_after =
      some (max 1 (3600 - (now - u.window_start))) := by
  simp [getRateLimitInfo, pyInt, h]

/-- Projection of `_get_rate_limit_info`: `retry_after` when the hourly count
is below the hourly limit. -/
theorem getInfo_retry_none (limits : RateLimitRule) (u : ClientUsage) (now : ℤ)
    (h : u.requests_count < limits.requests_per_hour) :
    (getRateLimitInfo limits u now).retry_after = none := by
  simp [getRateLimitInfo, pyInt]
  omega

/-- Trajectory of one client under an hourly-only policy, within one hour
window: starting from a record whose count is `k ≤ L` and whose window started
at `t0`, every further check at a time `t` with `t - t0 ≤ 3600` is allowed
(with `remaining` continuing to decrease) while the count is below `L`, and
rejected with a positive `retry_after` once the count has reached `L`; the
count ends at `min (k + length ts) L` and exactly `min (length ts) (L - k)`
of the calls are admitted. -/
theorem runChecks_hourly_trajectory (L : ℕ) (b : ℤ) (tr : ClientTier) (t0 : ℤ) :
    ∀ (ts : List ℤ) (k : ℕ) (u : ClientUsage),
    u.window_start = t0 →
    u.requests_count = (k : ℤ) →
    k ≤ L →
    (∀ t ∈ ts, t - t0 ≤ 3600) →
    (∀ i, i < ts.length →
      (k + i < L → ∃ info, (runChecks ⟨(L : ℤ), none, none, b, tr⟩ u ts).1.get? i =
          some (true, info) ∧ info.remaining = (L : ℤ) - ((k : ℤ) + i + 1)) ∧
      (L ≤ k + i → ∃ info rA, (runChecks ⟨(L : ℤ), none, none, b, tr⟩ u ts).1.get? i =
          some (false, info) ∧ info.retry_after = some rA ∧ 0 < rA)) ∧
    (runChecks ⟨(L : ℤ), none, none, b, tr⟩ u ts).2.requests_count = ((min (k + ts.length) L : ℕ) : ℤ) ∧
    (runChecks ⟨(L : ℤ), none, none, b, tr⟩ u ts).1.countP (fun p => p.1) = min ts.length (L - k) := by
  intro ts
  induction ts with
  | nil =>
    intro k u hws hcount hkL hts
    have hmin : min (k + List.length ([] : List ℤ)) L = k := by
      simp only [List.length_nil]
      omega
    refine ⟨by intro i hi; simp at hi, ?_, by simp [runChecks]⟩
    simp only [runChecks]
    rw [hmin, hcount]
  | cons t rest ih =>
    intro k u hws hcount hkL hts
    have ht : t - t0 ≤ 3600 := hts t (by simp)
    have hrest : ∀ t' ∈ rest, t' - t0 ≤ 3600 := fun t' h => hts t' (by simp [h])
    have hadj : t - u.window_start ≤ 3600 := by omega
    by_cases hk : L ≤ k
    · -- the count is already at the limit: this call and all later ones are rejected
      have hstep := isWithinLimits_hourlyOnly_rejected (L : ℤ) b tr u t hadj
        (by omega)
      have hIH := ih k { u with violations := u.violations + 1 } hws hcount hkL hrest
      have hzero : L - k = 0 := by omega
      refine ⟨?_, ?_, ?_⟩
      · intro i hi
        refine ⟨by intro hlt; omega, ?_⟩
        intro hge
        match i with
        | 0 =>
          refine ⟨getRateLimitInfo ⟨(L : ℤ), none, none, b, tr⟩
            { u with violations := u.violations + 1 } t,
            max 1 (3600 - (t - u.window_start)), ?_, ?_, ?_⟩
          · simp [runChecks, hstep]
          · exact getInfo_retry_some _ _ _ (by simp [hcount]; omega)
          · have h1 : (1 : ℤ) ≤ max 1 (3600 - (t - u.window_start)) := le_max_left _ _
            omega
        | i + 1 =>
          obtain ⟨info, rA, hgot, hra, hpos⟩ := (hIH.1 i (by simpa using hi)).2 (by omega)
          exact ⟨info, rA, by simpa [runChecks, hstep] using hgot, hra, hpos⟩
      · have hcnt := hIH.2.1
        have hminEq : min (k + rest.length) L = min (k + (t :: rest).length) L := by
          simp only [List.length_cons]
          omega
        simp only [runChecks, hstep]
        rw [hcnt, ← hminEq]
      · have hcp := hIH.2.2
        simp only [runChecks, hstep, List.countP_cons]
        simp [hcp, hzero]
    · -- below the limit: this call is allowed and increments the count
      push_neg at hk
      have hstep := isWithinLimits_hourlyOnly_allowed (L : ℤ) b tr u t hadj
        (by omega)
      have hIH := ih (k + 1)
        { u with requests_count := u.requests_count + 1
                 total_requests := u.total_requests + 1
                 last_request_time := t }
        hws (by simp [hcount]) (by omega) hrest
      refine ⟨?_, ?_, ?_⟩
      · intro i hi
        constructor
        · intro hlt
          match i with
          | 0 =>
            refine ⟨getRateLimitInfo ⟨(L : ℤ), none, none, b, tr⟩
              { u with requests_count := u.requests_count + 1
                       total_requests := u.total_requests + 1
                       last_request_time := t } t, ?_, ?_⟩
            · simp [runChecks, hstep]
            · rw [getInfo_remaining]
              simp [hcount]
              omega
          | i + 1 =>
            obtain ⟨info, hgot, hrem⟩ := (hIH.1 i (by simpa using hi)).1 (by omega)
            refine ⟨info, by simpa [runChecks, hstep] using hgot, ?_⟩
            rw [hrem]
            push_cast
            ring
        · intro hge
          match i with
          | 0 => omega
          | i + 1 =>
            obtain ⟨info, rA, hgot, hra, hpos⟩ := (hIH.1 i (by simpa using hi)).2 (by omega)
            exact ⟨info, rA, by simpa [runChecks, hstep] using hgot, hra, hpos⟩
      · have hcnt := hIH.2.1
        have hminEq : min (k + 1 + rest.length) L = min (k + (t :: rest).length) L := by
          simp only [List.length_cons]
          omega
        simp only [runChecks, hstep]
        rw [hcnt, ← hminEq]
      · have hcp := hIH.2.2
        simp only [runChecks, hstep, List.countP_cons, List.length_cons]
        simp [hcp]
        rw [Nat.min_def, Nat.min_def]
        split_ifs <;> omega

/-- Claim C1 (confirmed): for a freshly-created client checked under a policy
whose only configured limit is an hourly limit `L ≥ 1`, the first `L` calls to
the admission check within the same hour window are all allowed, with the
reported `remaining` decreasing `L-1, …, 1, 0` (in particular the very first
call, `i = 0`, of the record-less client is allowed), and the `(L+1)`-th call
is rejected with `retry_after > 0`. -/
theorem claim_C1_monotonic_admission (L : ℕ) (b : ℤ) (tr : ClientTier) (t0 : ℤ)
    (ts : List ℤ) (hL : 1 ≤ L) (hlen : ts.length = L + 1)
    (hts : ∀ t ∈ ts, t - t0 ≤ 3600) :
    (∀ i, i < L → ∃ info,
      (runChecks ⟨(L : ℤ), none, none, b, tr⟩ (ClientUsage.init t0) ts).1.get? i =
        some (true, info) ∧ info.remaining = (L : ℤ) - ((i : ℤ) + 1)) ∧
    (∃ info rA,
      (runChecks ⟨(L : ℤ), none, none, b, tr⟩ (ClientUsage.init t0) ts).1.get? L =
        some (false, info) ∧ info.retry_after = some rA ∧ 0 < rA) := by
  have htraj := runChecks_hourly_trajectory L b tr t0 ts 0 (ClientUsage.init t0)
    rfl rfl (by omega) hts
  constructor
  · intro i hi
    obtain ⟨info, hgot, hrem⟩ := (htraj.1 i (by omega)).1 (by omega)
    refine ⟨info, hgot, ?_⟩
    rw [hrem]
    push_cast
    ring
  · obtain ⟨info, rA, h⟩ := (htraj.1 L (by omega)).2 (by omega)
    exact ⟨info, rA, h⟩

/-- Concrete instance of claim C1: `L = 5`, six immediate calls. -/
theorem claim_C1_monotonic_admission_witness :
    (∀ i, i < 5 → ∃ info,
      (runChecks ⟨((5 : ℕ) : ℤ), none, none, 10, .DEFAULT⟩ (ClientUsage.init 0)
          [0, 0, 0, 0, 0, 0]).1.get? i =
        some (true, info) ∧ info.remaining = ((5 : ℕ) : ℤ) - ((i : ℤ) + 1)) ∧
    (∃ info rA,
      (runChecks ⟨((5 : ℕ) : ℤ), none, none, 10, .DEFAULT⟩ (ClientUsage.init 0)
          [0, 0, 0, 0, 0, 0]).1.get? 5 =
        some (false, info) ∧ info.retry_after = some rA ∧ 0 < rA) :=
  claim_C1_monotonic_admission 5 10 .DEFAULT 0 [0, 0, 0, 0, 0, 0]
    (by decide) (by decide) (by decide)

/-- Every admission check produces exactly one decision: the result list of
`runChecks` has the length of the timestamp list. -/
theorem runChecks_length (limits : RateLimitRule) :
    ∀ (ts : List ℤ) (u : ClientUsage), (runChecks limits u ts).1.length = ts.length := by
  intro ts
  induction ts with
  | nil => intro u; simp [runChecks]
  | cons t rest ih =>
    intro u
    simp only [runChecks, List.length_cons]
    rw [ih]

/-- Claim C9 (confirmed, sequential model): every `is_within_limits` call runs
under the limiter's global `RLock`, so any interleaving of `N` concurrent
checks for one client is some sequence of `N` atomic checks.  For a fresh
client under an hourly-only limit `L < N`, any such sequence inside one hour
window admits exactly `L` calls and rejects `N - L`, and after every prefix of
the sequence the admitted count of the record never exceeds `L`. -/
theorem claim_C9_race_freedom (L N : ℕ) (b : ℤ) (tr : ClientTier) (t0 : ℤ)
    (ts : List ℤ) (hL : 1 ≤ L) (hLN : L < N) (hlen : ts.length = N)
    (hts : ∀ t ∈ ts, t - t0 ≤ 3600) :
    (runChecks ⟨(L : ℤ), none, none, b, tr⟩ (ClientUsage.init t0) ts).1.countP
        (fun p => p.1) = L ∧
    (runChecks ⟨(L : ℤ), none, none, b, tr⟩ (ClientUsage.init t0) ts).1.countP
        (fun p => !p.1) = N - L ∧
    (∀ ts1 ts2, ts = ts1 ++ ts2 →
      (runChecks ⟨(L : ℤ), none, none, b, tr⟩ (ClientUsage.init t0) ts1).2.requests_count
        ≤ (L : ℤ)) := by
  have htraj := runChecks_hourly_trajectory L b tr t0 ts 0 (ClientUsage.init t0)
    rfl rfl (by omega) hts
  have hres : (runChecks ⟨(L : ℤ), none, none, b, tr⟩ (ClientUsage.init t0) ts).1.length = ts.length :=
    runChecks_length _ ts _
  have hct : (runChecks ⟨(L : ℤ), none, none, b, tr⟩ (ClientUsage.init t0) ts).1.countP
      (fun p => p.1) = L := by
    rw [htraj.2.2, hlen, Nat.sub_zero, Nat.min_def]
    split_ifs <;> omega
  refine ⟨hct, ?_, ?_⟩
  · have hsplit := ((runChecks ⟨(L : ℤ), none, none, b, tr⟩ (ClientUsage.init t0) ts).1).length_eq_countP_add_countP (fun p => p.1)
    rw [hres, hlen, hct] at hsplit
    have hsplit2 : N = L + (runChecks ⟨(L : ℤ), none, none, b, tr⟩ (ClientUsage.init t0) ts).1.countP
        (fun p => !p.1) := by simpa using hsplit
    omega
  · intro ts1 ts2 hsplit
    have hts1 : ∀ t ∈ ts1, t - t0 ≤ 3600 := by
      intro t h
      exact hts t (by rw [hsplit]; exact List.mem_append_left _ h)
    have h1 := (runChecks_hourly_trajectory L b tr t0 ts1 0 (ClientUsage.init t0)
      rfl rfl (by omega) hts1).2.1
    rw [h1]
    have : min (0 + ts1.length) L ≤ L := min_le_right _ _
    exact_mod_cast this

/-- Concrete instance of claim C9: hourly limit 2, four simultaneous calls:
exactly two admitted, two rejected, counter never above 2. -/
theorem claim_C9_race_freedom_witness :
    (runChecks ⟨((2 : ℕ) : ℤ), none, none, 10, .DEFAULT⟩ (ClientUsage.init 0)
        [0, 0, 0, 0]).1.countP (fun p => p.1) = 2 ∧
    (runChecks ⟨((2 : ℕ) : ℤ), none, none, 10, .DEFAULT⟩ (ClientUsage.init 0)
        [0, 0, 0, 0]).1.countP (fun p => !p.1) = 4 - 2 ∧
    (∀ ts1 ts2, [0, 0, 0, 0] = ts1 ++ ts2 →
      (runChecks ⟨((2 : ℕ) : ℤ), none, none, 10, .DEFAULT⟩ (ClientUsage.init 0)
          ts1).2.requests_count ≤ ((2 : ℕ) : ℤ)) :=
  claim_C9_race_freedom 2 4 10 .DEFAULT 0 [0, 0, 0, 0]
    (by decide) (by decide) (by decide) (by decide)

/-- The info dictionary an admission check returns is `_get_rate_limit_info`
evaluated on the (already updated) record the check leaves behind. -/
theorem isWithinLimits_info_eq (limits : RateLimitRule) (u : ClientUsage) (now : ℤ) :
    (isWithinLimits limits u now).2.2 =
      getRateLimitInfo limits (isWithinLimits limits u now).2.1 now := by
  unfold isWithinLimits
  dsimp only
  split_ifs <;> rfl

set_option maxRecDepth 100000 in
/-- Claim C2 counterexample: under the actual DEFAULT-tier policy
(100/hour, 10/minute, 500/day) the 11th immediate call of a fresh client is
rejected by the minute window, yet its `retry_after` is `None` — refuting
"`retry_after` is present iff `allowed == false`". -/
theorem claim_C2_counterexample :
    ((runChecks (tier_limits .DEFAULT) (ClientUsage.init 0) (List.replicate 11 0)).1.map
        (fun p => (p.1, p.2.retry_after))).get? 10 = some (false, none) := by
  decide

/-- Claim C2 (corrected): `retry_after` is populated iff the hourly count of
the record the check returns has reached the hourly limit — not iff the call
was rejected.  (So a rejection caused only by the minute or day window carries
no `retry_after`, while the allowed call that exhausts the hourly quota does
carry one.)  Whenever `retry_after` is present it is at least 1. -/
theorem claim_C2_retry_after_iff_hourly_exhausted (limits : RateLimitRule)
    (u : ClientUsage) (now : ℤ) :
    ((isWithinLimits limits u now).2.2.retry_after ≠ none ↔
      limits.requests_per_hour ≤ (isWithinLimits limits u now).2.1.requests_count) ∧
    (∀ rA, (isWithinLimits limits u now).2.2.retry_after = some rA → 1 ≤ rA) := by
  rw [isWithinLimits_info_eq]
  constructor
  · constructor
    · intro h
      by_contra hc
      push_neg at hc
      rw [getInfo_retry_none limits _ now hc] at h
      exact h rfl
    · intro h
      rw [getInfo_retry_some limits _ now h]
      simp
  · intro rA h
    rcases le_or_lt limits.requests_per_hour
        ((isWithinLimits limits u now).2.1).requests_count with hge | hlt
    · rw [getInfo_retry_some limits _ now hge] at h
      simp only [Option.some.injEq] at h
      have := le_max_left (1 : ℤ)
        (3600 - (now - ((isWithinLimits limits u now).2.1).window_start))
      omega
    · rw [getInfo_retry_none limits _ now hlt] at h
      simp at h

/-- A policy with a minute limit of 2 and an hourly limit of 100, the shape the
spec uses for its minute-window examples. -/
def minuteRule : RateLimitRule := ⟨100, some 2, none, 10, .DEFAULT⟩

set_option maxRecDepth 100000 in
/-- Claim C3 (code bug, evaluation at the failing input): the code keeps no
per-window counters.  Under `{per_minute := 2, per_hour := 100}` a fresh
client's calls at times `0, 0, 0, 61, 61, 61` give
`allowed = T, T, F, T, T, T`: once 60 s have passed since the client's
`first_request_time`, `_count_requests_in_window` returns 0 forever, so the
6th call (the third inside the minute window starting at 61) is allowed where
a per-window reset to `window_start[minute] = 61` would reject it.  Moreover
the hour reset is strict: with hourly limit 1, calls at `0` and `3600` give
`allowed = T, F`, where the claimed inclusive boundary
(`now - window_start >= 3600`) would reset and allow the second call. -/
theorem claim_C3_fixed_window_reset_codeEval :
    (runChecks minuteRule (ClientUsage.init 0) [0, 0, 0, 61, 61, 61]).1.map (fun p => p.1) =
      [true, true, false, true, true, true] ∧
    (runChecks ⟨1, none, none, 10, .DEFAULT⟩ (ClientUsage.init 0) [0, 3600]).1.map
        (fun p => p.1) = [true, false] := by
  constructor <;> decide

set_option maxRecDepth 100000 in
/-- Claim C4 counterexample: under `{per_minute := 2, per_hour := 100}` the
third immediate call of a fresh client is rejected (by the minute window,
elapsed time 0), yet the returned `retry_after` is `None`, not
`ceil(60 - 0) = 60` as the claim's first-violated-window formula
(minute → hour → day order) requires. -/
theorem claim_C4_counterexample :
    (runChecks minuteRule (ClientUsage.init 0) [0, 0, 0]).1.map
        (fun p => (p.1, p.2.retry_after)) =
      [(true, none), (true, none), (false, none)] := by
  decide

/-- Claim C4 (corrected): the code checks the windows in the order
hour → minute → day (not minute → hour → day), and the `retry_after` of a
rejected check is computed solely from the hourly window: it equals
`max 1 (3600 - (now - window_start))` when the returned record's hourly count
has reached the hourly limit, and is `None` otherwise — in particular a
rejection caused only by the minute or the day window reports no
`retry_after` at all. -/
theorem claim_C4_retry_after_hourly_only (limits : RateLimitRule) (u : ClientUsage)
    (now : ℤ) (_hrej : (isWithinLimits limits u now).1 = false) :
    (isWithinLimits limits u now).2.2.retry_after =
      (if limits.requests_per_hour ≤ (isWithinLimits limits u now).2.1.requests_count then
        some (max 1 (3600 - (now - (isWithinLimits limits u now).2.1.window_start)))
      else
        none) := by
  rw [isWithinLimits_info_eq]
  rcases le_or_lt limits.requests_per_hour
      ((isWithinLimits limits u now).2.1).requests_count with hge | hlt
  · rw [getInfo_retry_some limits _ now hge, if_pos hge]
  · rw [getInfo_retry_none limits _ now hlt, if_neg (by omega)]

set_option maxRecDepth 100000 in
/-- Concrete instance of claim C4 (corrected): the third immediate call under
`{per_minute := 2, per_hour := 100}` is rejected and its `retry_after`
follows the hourly-only formula (here: `None`). -/
theorem claim_C4_retry_after_hourly_only_witness :
    (isWithinLimits minuteRule
        (runChecks minuteRule (ClientUsage.init 0) [0, 0]).2 0).2.2.retry_after =
      (if minuteRule.requests_per_hour ≤
          (isWithinLimits minuteRule
            (runChecks minuteRule (ClientUsage.init 0) [0, 0]).2 0).2.1.requests_count then
        some (max 1 (3600 - (0 - (isWithinLimits minuteRule
          (runChecks minuteRule (ClientUsage.init 0) [0, 0]).2 0).2.1.window_start)))
      else
        none) :=
  claim_C4_retry_after_hourly_only minuteRule
    (runChecks minuteRule (ClientUsage.init 0) [0, 0]).2 0 (by decide)

/-- Characterisation of one optional-window check: it fires exactly for a
configured (present, non-zero) limit that the window's count has reached. -/
theorem windowViolated_eq_true_iff (lo : Option ℤ) (u : ClientUsage) (w now : ℤ) :
    windowViolated lo u w now = true ↔
      ∃ m, lo = some m ∧ m ≠ 0 ∧ m ≤ countRequestsInWindow u w now := by
  cases lo with
  | none => simp [windowViolated]
  | some m =>
    by_cases hm : m = 0
    · simp [windowViolated, hm]
    · simp [windowViolated, hm]

/-- Characterisation of one admission check: it is allowed exactly when the
(post-reset) hourly count is below the hourly limit and every configured
minute/day window's count is below its limit. -/
theorem isWithinLimits_allowed_iff (limits : RateLimitRule) (u : ClientUsage) (now : ℤ) :
    (isWithinLimits limits u now).1 = true ↔
      ((hourResetAdjust u now).requests_count < limits.requests_per_hour ∧
       (∀ m, limits.requests_per_minute = some m → m ≠ 0 →
          countRequestsInWindow (hourResetAdjust u now) 60 now < m) ∧
       (∀ d, limits.requests_per_day = some d → d ≠ 0 →
          countRequestsInWindow (hourResetAdjust u now) 86400 now < d)) := by
  unfold isWithinLimits
  dsimp only
  split_ifs with h1 h2 h3
  · constructor
    · intro h
      simp at h
    · rintro ⟨ha, -, -⟩
      omega
  · constructor
    · intro h
      simp at h
    · rintro ⟨-, hm, -⟩
      obtain ⟨m, hmo, hm0, hle⟩ := (windowViolated_eq_true_iff _ _ _ _).mp h2
      exact absurd (hm m hmo hm0) (by omega)
  · constructor
    · intro h
      simp at h
    · rintro ⟨-, -, hd⟩
      obtain ⟨d, hdo, hd0, hle⟩ := (windowViolated_eq_true_iff _ _ _ _).mp h3
      exact absurd (hd d hdo hd0) (by omega)
  · constructor
    · intro _
      refine ⟨by omega, ?_, ?_⟩
      · intro m hmo hm0
        by_contra hc
        push_neg at hc
        exact h2 ((windowViolated_eq_true_iff _ _ _ _).mpr ⟨m, hmo, hm0, hc⟩)
      · intro d hdo hd0
        by_contra hc
        push_neg at hc
        exact h3 ((windowViolated_eq_true_iff _ _ _ _).mpr ⟨d, hdo, hd0, hc⟩)
    · intro _
      rfl

set_option maxRecDepth 100000 in
/-- Claim C5 (confirmed): windows combine with AND semantics — a check is
allowed exactly when the (post-reset) hourly count is below the hourly limit
AND every configured minute/day window's count is below its limit, so a
violation of any one configured window rejects the request regardless of the
others.  Concretely, under `{per_minute := 2, per_hour := 100}` a fresh
client's first two immediate calls are allowed and the third is rejected even
though the hourly count is far below 100. -/
theorem claim_C5_window_and_semantics :
    (∀ (limits : RateLimitRule) (u : ClientUsage) (now : ℤ),
      ((isWithinLimits limits u now).1 = true ↔
        ((hourResetAdjust u now).requests_count < limits.requests_per_hour ∧
         (∀ m, limits.requests_per_minute = some m → m ≠ 0 →
            countRequestsInWindow (hourResetAdjust u now) 60 now < m) ∧
         (∀ d, limits.requests_per_day = some d → d ≠ 0 →
            countRequestsInWindow (hourResetAdjust u now) 86400 now < d)))) ∧
    (runChecks minuteRule (ClientUsage.init 0) [0, 0, 0]).1.map (fun p => p.1) =
      [true, true, false] :=
  ⟨isWithinLimits_allowed_iff, by decide⟩

/-- Claim C6 (confirmed): the effective policy is the field-wise minimum of
the tier policy and the endpoint override when an override exists (absent
optional fields merge as "no constraint"), and is the tier policy unchanged
otherwise; hence the effective hourly limit never exceeds the tier's hourly
limit.  Concretely, tier AUTHENTICATED (1000/hour) on
`/api/v1/analysis/constitutional` (override 50/hour) yields 50/hour. -/
theorem claim_C6_effective_policy_minimum :
    (∀ (tier : ClientTier) (ep : String),
      (get_applicable_limits tier ep).requests_per_hour ≤
        (tier_limits tier).requests_per_hour) ∧
    (∀ (tier : ClientTier) (ep : String), endpoint_limits ep = none →
      get_applicable_limits tier ep = tier_limits tier) ∧
    (∀ (tier : ClientTier) (ep : String) (r : RateLimitRule), endpoint_limits ep = some r →
      get_applicable_limits tier ep =
        { requests_per_hour := min (tier_limits tier).requests_per_hour r.requests_per_hour
          requests_per_minute :=
            minOptLimit (tier_limits tier).requests_per_minute r.requests_per_minute
          requests_per_day := minOptLimit (tier_limits tier).requests_per_day r.requests_per_day
          burst_allowance := min (tier_limits tier).burst_allowance r.burst_allowance
          tier := tier }) ∧
    ((tier_limits .AUTHENTICATED).requests_per_hour = 1000 ∧
      (endpoint_limits "/api/v1/analysis/constitutional").map
        (fun r => r.requests_per_hour) = some 50 ∧
      (get_applicable_limits .AUTHENTICATED
        "/api/v1/analysis/constitutional").requests_per_hour = 50) := by
  refine ⟨?_, ?_, ?_, by decide⟩
  · intro tier ep
    unfold get_applicable_limits
    cases h : endpoint_limits ep with
    | none => exact le_refl _
    | some r => exact min_le_left _ _
  · intro tier ep h
    unfold get_applicable_limits
    rw [h]
  · intro tier ep r h
    unfold get_applicable_limits
    rw [h]

set_option maxRecDepth 1000000 in
/-- Claim C7 counterexample: the code separates IP and User-Agent with `":"`
(`f"{ip_address}:{user_agent}"`), not `"|"`.  For a request with no
credentials, remote address `1.2.3.4` and user agent `curl`, the identity the
code computes differs from the claimed
`"anon:" + SHA256(remote_ip + "|" + user_agent)[:16]`. -/
theorem claim_C7_counterexample :
    get_client_identifier ⟨none, none, some "curl", none, some "1.2.3.4"⟩ ≠
      "anon:" ++ (sha256hex (strBytes ("1.2.3.4" ++ "|" ++ "curl"))).take 16 := by
  decide

/-- Claim C7 (corrected): client identity derivation is a pure function of the
request metadata (hence idempotent).  With a `Bearer` authorization header the
identity is `"api:" + SHA256(token)[:16]`; otherwise with a non-empty
`X-API-Key` header the same scheme applies to that key; otherwise the identity
is `"anon:" + SHA256(ip + ":" + user_agent)[:16]` — colon separator, with the
IP taken from `X-Forwarded-For`, else the remote address, else `"unknown"`,
and an absent User-Agent read as `"unknown"`. -/
theorem claim_C7_client_identifier (req : RequestMeta) :
    ((req.authorization.getD "").startsWith "Bearer " = true →
      get_client_identifier req =
        "api:" ++ (sha256hex (strBytes ((req.authorization.getD "").drop 7))).take 16) ∧
    ((req.authorization.getD "").startsWith "Bearer " = false →
      ∀ k, req.x_api_key = some k → k ≠ "" →
      get_client_identifier req = "api:" ++ (sha256hex (strBytes k)).take 16) ∧
    ((req.authorization.getD "").startsWith "Bearer " = false →
      (req.x_api_key = none ∨ req.x_api_key = some "") →
      get_client_identifier req =
        "anon:" ++ (sha256hex (strBytes
          ((req.http_x_forwarded_for.getD (req.remote_addr.getD "unknown")) ++ ":" ++
           (req.user_agent.getD "unknown")))).take 16) ∧
    (∀ req2 : RequestMeta, req = req2 →
      get_client_identifier req = get_client_identifier req2) := by
  obtain ⟨auth, key, ua, fwd, addr⟩ := req
  have hauth : (match auth with | some v => v | none => "") =
      (Option.getD auth "") := by
    cases auth <;> rfl
  refine ⟨?_, ?_, ?_, ?_⟩
  · intro h
    unfold get_client_identifier
    dsimp only at hauth ⊢
    rw [hauth, if_pos h]
  · intro h k hk hk0
    unfold get_client_identifier
    dsimp only at hauth hk ⊢
    rw [hauth, if_neg (by simp [h]), hk]
    dsimp only
    rw [if_neg hk0]
  · intro h hk
    unfold get_client_identifier anonIdentifier
    dsimp only at hauth ⊢
    rw [hauth, if_neg (by simp [h])]
    rcases hk with hk | hk <;>
      · dsimp only at hk
        rw [hk]
        dsimp only
        cases fwd <;> cases addr <;> cases ua <;> rfl
  · intro req2 h2
    rw [h2]

/-- Counter facts for one admission check: `total_requests` and `violations`
never decrease (each grows by at most 1), and a non-negative request count
stays non-negative. -/
theorem isWithinLimits_counter_facts (limits : RateLimitRule) (u : ClientUsage) (now : ℤ) :
    u.total_requests ≤ (isWithinLimits limits u now).2.1.total_requests ∧
    u.violations ≤ (isWithinLimits limits u now).2.1.violations ∧
    (isWithinLimits limits u now).2.1.total_requests ≤ u.total_requests + 1 ∧
    (isWithinLimits limits u now).2.1.violations ≤ u.violations + 1 ∧
    (0 ≤ u.requests_count → 0 ≤ (isWithinLimits limits u now).2.1.requests_count) := by
  unfold isWithinLimits hourResetAdjust
  dsimp only
  split_ifs <;> dsimp only <;> omega

/-- One operation preserves non-negativity of every stored record's counters. -/
theorem applyOp_nonneg (s : Store) (op : RLOp)
    (hs : ∀ cid u, s cid = some u →
      0 ≤ u.requests_count ∧ 0 ≤ u.total_requests ∧ 0 ≤ u.violations) :
    ∀ cid u, applyOp s op cid = some u →
      0 ≤ u.requests_count ∧ 0 ≤ u.total_requests ∧ 0 ≤ u.violations := by
  cases op with
  | statsRead => exact hs
  | cleanup ma now =>
    intro cid u hu
    unfold applyOp cleanup_old_clients at hu
    dsimp only at hu
    cases h : s cid with
    | none => rw [h] at hu; exact absurd hu (by simp)
    | some u0 =>
      rw [h] at hu
      dsimp only at hu
      split_ifs at hu with hc
      obtain rfl := Option.some.inj hu
      exact hs cid u0 h
  | check cid2 tier ep now =>
    intro cid u hu
    unfold applyOp storeCheck storeSet at hu
    dsimp only at hu
    by_cases hc : cid = cid2
    · rw [if_pos hc] at hu
      have hu' : (isWithinLimits (get_applicable_limits tier ep)
          (match s cid2 with | some u0 => u0 | none => ClientUsage.init now) now).2.1 = u := by
        simpa using hu
      have hbase : 0 ≤ (match s cid2 with
          | some u0 => u0 | none => ClientUsage.init now).requests_count ∧
          0 ≤ (match s cid2 with
          | some u0 => u0 | none => ClientUsage.init now).total_requests ∧
          0 ≤ (match s cid2 with
          | some u0 => u0 | none => ClientUsage.init now).violations := by
        cases h : s cid2 with
        | none => refine ⟨le_refl _, le_refl _, le_refl _⟩
        | some u0 => exact hs cid2 u0 h
      have hf := isWithinLimits_counter_facts (get_applicable_limits tier ep)
        (match s cid2 with | some u0 => u0 | none => ClientUsage.init now) now
      rw [hu'] at hf
      exact ⟨hf.2.2.2.2 hbase.1, by omega, by omega⟩
    · rw [if_neg hc] at hu
      exact hs cid u hu

/-- Claim C8 (confirmed): starting from the empty client map, after any
sequence of admission checks, stats reads and reaper sweeps every stored
record's per-window count, `total_requests` and `violations` are non-negative;
and across any single operation, a record that survives it never sees its
`total_requests` or `violations` decrease. -/
theorem claim_C8_nonneg_monotonic_counters :
    (∀ (ops : List RLOp) (cid : String) (u : ClientUsage),
      runOps ops cid = some u →
      0 ≤ u.requests_count ∧ 0 ≤ u.total_requests ∧ 0 ≤ u.violations) ∧
    (∀ (s : Store) (op : RLOp) (cid : String) (u u' : ClientUsage),
      s cid = some u → applyOp s op cid = some u' →
      u.total_requests ≤ u'.total_requests ∧ u.violations ≤ u'.violations) := by
  constructor
  · have haux : ∀ (ops : List RLOp) (s : Store),
        (∀ cid u, s cid = some u →
          0 ≤ u.requests_count ∧ 0 ≤ u.total_requests ∧ 0 ≤ u.violations) →
        ∀ cid u, (ops.foldl applyOp s) cid = some u →
          0 ≤ u.requests_count ∧ 0 ≤ u.total_requests ∧ 0 ≤ u.violations := by
      intro ops
      induction ops with
      | nil => intro s hs; exact hs
      | cons op rest ih =>
        intro s hs
        exact ih (applyOp s op) (applyOp_nonneg s op hs)
    intro ops
    exact haux ops emptyStore (by intro cid u h; exact absurd h (by simp [emptyStore]))
  · intro s op cid u u' hu hu'
    cases op with
    | statsRead =>
      have : some u = some u' := by rw [← hu, ← hu']; rfl
      obtain rfl := Option.some.inj this
      exact ⟨le_refl _, le_refl _⟩
    | cleanup ma now =>
      unfold applyOp cleanup_old_clients at hu'
      dsimp only at hu'
      rw [hu] at hu'
      dsimp only at hu'
      split_ifs at hu' with hc
      obtain rfl := Option.some.inj hu'
      exact ⟨le_refl _, le_refl _⟩
    | check cid2 tier ep now =>
      unfold applyOp storeCheck storeSet at hu'
      dsimp only at hu'
      by_cases hc : cid = cid2
      · rw [if_pos hc] at hu'
        subst hc
        rw [hu] at hu'
        have heq : (isWithinLimits (get_applicable_limits tier ep) u now).2.1 = u' := by
          simpa using hu'
        have hf := isWithinLimits_counter_facts (get_applicable_limits tier ep) u now
        rw [heq] at hf
        exact ⟨hf.1, hf.2.1⟩
      · rw [if_neg hc] at hu'
        rw [hu] at hu'
        obtain rfl := Option.some.inj hu'
        exact ⟨le_refl _, le_refl _⟩

/-- Claim C10 (confirmed): under positive limits, a rejected admission check
mutates only `violations` (by exactly +1): the request count, the totals, the
window start and both request timestamps are untouched.  Consequently a
client whose calls are all rejected keeps its old `last_request_time` and is
evicted by `cleanup_old_clients` once it has been idle longer than `max_age`. -/
theorem claim_C10_rejected_call_frame (limits : RateLimitRule) (u : ClientUsage) (now : ℤ)
    (hhour : 1 ≤ limits.requests_per_hour)
    (hmin : ∀ m, limits.requests_per_minute = some m → 1 ≤ m)
    (hday : ∀ d, limits.requests_per_day = some d → 1 ≤ d)
    (hrej : (isWithinLimits limits u now).1 = false) :
    (isWithinLimits limits u now).2.1 = { u with violations := u.violations + 1 } ∧
    (∀ (s : Store) (cid : String) (ma t : ℤ),
      s cid = some (isWithinLimits limits u now).2.1 →
      ma < t - u.last_request_time →
      cleanup_old_clients s ma t cid = none) := by
  have hnoreset : ¬ 3600 < now - u.window_start := by
    intro hr
    have hadj : hourResetAdjust u now =
        { u with requests_count := 0, window_start := now } := by
      unfold hourResetAdjust
      rw [if_pos hr]
    have hall : (isWithinLimits limits u now).1 = true := by
      rw [isWithinLimits_allowed_iff]
      rw [hadj]
      refine ⟨by dsimp only; omega, ?_, ?_⟩
      · intro m hm _
        have := hmin m hm
        unfold countRequestsInWindow
        dsimp only
        split_ifs <;> omega
      · intro d hd _
        have := hday d hd
        unfold countRequestsInWindow
        dsimp only
        split_ifs <;> omega
    rw [hall] at hrej
    simp at hrej
  have hadj : hourResetAdjust u now = u := by
    unfold hourResetAdjust
    rw [if_neg hnoreset]
  have heq : (isWithinLimits limits u now).2.1 = { u with violations := u.violations + 1 } := by
    unfold isWithinLimits at hrej ⊢
    rw [hadj] at hrej ⊢
    dsimp only at hrej ⊢
    split_ifs at hrej ⊢ <;> rfl
  refine ⟨heq, ?_⟩
  intro s cid ma t hs hlt
  unfold cleanup_old_clients
  rw [hs, heq]
  dsimp only
  rw [if_pos (by omega)]

/-- Concrete instance of claim C10: hourly limit 1, a record with count 1,
checked again at time 0 — rejected, only `violations` changes, and the record
is reaped once idle longer than the threshold. -/
theorem claim_C10_rejected_call_frame_witness :
    (isWithinLimits ⟨1, none, none, 10, .DEFAULT⟩ ⟨1, 0, 0, 0, 1, 0⟩ 0).2.1 =
      { (⟨1, 0, 0, 0, 1, 0⟩ : ClientUsage) with
        violations := (⟨1, 0, 0, 0, 1, 0⟩ : ClientUsage).violations + 1 } ∧
    (∀ (s : Store) (cid : String) (ma t : ℤ),
      s cid = some (isWithinLimits ⟨1, none, none, 10, .DEFAULT⟩ ⟨1, 0, 0, 0, 1, 0⟩ 0).2.1 →
      ma < t - (⟨1, 0, 0, 0, 1, 0⟩ : ClientUsage).last_request_time →
      cleanup_old_clients s ma t cid = none) :=
  claim_C10_rejected_call_frame ⟨1, none, none, 10, .DEFAULT⟩ ⟨1, 0, 0, 0, 1, 0⟩ 0
    (by decide) (by simp) (by simp) (by decide)
